import Mathlib

/-!
Verification development for the `libmadx` binding layer
(`src/cern/cpymad/libmadx.pyx`): a shallow embedding of the module's
marshalling, decoding and lookup logic, together with theorems settling
the specification's claims about it.

Modelling conventions:
* C `double` values pass through the binding untouched; they are modelled
  as exact rationals (`Rat`).
* A C string (`char*`) is either the null pointer or a byte payload.
  Python's utf-8 `encode`/`decode` pair is a bijection between host
  strings and their encodings, so the byte payload is represented by the
  host string it encodes; `CStr.null` stays distinguishable from the
  empty string `CStr.str ""`.
* Fallible Python code is modelled with `Except Err`; a read past the
  logical end of a native array (undefined behaviour in the C source) is
  modelled as the distinguished fault `Err.oobRead`, and dereferencing a
  null pointer as `Err.nullDeref`.
* Native MAD-X routines that the Cython module merely calls
  (`name_list_pos`, `table_get_column`, ...) are not part of the source
  under `src/`; they are modelled from the specification, marked below.
-/

set_option autoImplicit false

namespace Cpymad

/-- Error taxonomy of the binding layer (spec section 7).  `notFound`,
`invalidState`, `columnNotFound`, `unknownColumnType`,
`invalidParameterType` and `emptyNode` correspond to the `ValueError` /
`RuntimeError` sites of the source; `engineNotStarted` is the spec's
boundary-guard error (stated here so claims about it can be expressed);
`unpackError` and `floatParseError` are the Python unpacking / `float()`
failures of `_split_header_line`; `oobRead` and `nullDeref` model native
undefined behaviour. -/
inductive Err where
  | notFound (name : Option String)
  | invalidState (reason : String)
  | columnNotFound (column : Option String) (table : Option String)
  | unknownColumnType (tag : Char) (column : Option String)
  | invalidParameterType (tag : Int)
  | emptyNode
  | engineNotStarted
  | unpackError
  | floatParseError (raw : String)
  | oobRead
  | nullDeref
deriving DecidableEq

/-- A C string: the null pointer, or a (utf-8 encoded) byte payload
represented by the host string it encodes. -/
inductive CStr where
  | null
  | str (s : String)
deriving DecidableEq

/-- Decode a C string to a Python string (`_str` in the source): null
decodes to `None`, otherwise the utf-8 decoding of the bytes. -/
def _str (s : CStr) : Option String :=
  match s with
  | .null => none
  | .str s => some s

/-- Encode a Python string to a C string (`_cstr` in the source): `None`
encodes to the empty byte string (never a null pointer). -/
def _cstr (s : Option String) : CStr :=
  match s with
  | none => .str ""
  | some s => .str s

/-- The byte payload of an encoded string (what the native side receives). -/
def cstrVal (s : CStr) : String :=
  match s with
  | .null => ""
  | .str s => s

/-- The MAD-X `expression` struct; the binding reads only its `string`
field. -/
structure expression where
  string : CStr
deriving DecidableEq

/-- Index into the source's `_expr_types = [bool, int, float]` list. -/
inductive TypeId where
  | tbool
  | tint
  | tfloat
deriving DecidableEq

/-- Python `int()` applied to a float truncates toward zero. -/
def pytrunc (v : Rat) : Int :=
  if 0 ≤ v then ⌊v⌋ else ⌈v⌉

/-- Result of coercing a raw double with one of the Python types
`bool` / `int` / `float`. -/
inductive PyScalar where
  | b (x : Bool)
  | i (x : Int)
  | f (x : Rat)
deriving DecidableEq

/-- Apply the Python type selected by the type index to a raw double
(`type(value)` in `_expr`). -/
def coerceType (t : TypeId) (v : Rat) : PyScalar :=
  match t with
  | .tbool => .b (decide (v ≠ 0))
  | .tint => .i (pytrunc v)
  | .tfloat => .f v

/-- The source's `_expr_types` list, as a partial index lookup: indexing
outside `[bool, int, float]` is a Python `IndexError`. -/
def _expr_types (typeid : Int) : Option TypeId :=
  if typeid = 0 then some .tbool
  else if typeid = 1 then some .tint
  else if typeid = 2 then some .tfloat
  else none

/-- A decoded numeric parameter value: either a plainly coerced value
(no provenance) or an `Expression` object carrying the symbolic
expression string as provenance together with the raw value and type. -/
inductive EValue where
  | plain (v : PyScalar)
  | expr (s : Option String) (v : Rat) (t : TypeId)
deriving DecidableEq

/-- The source's `_expr` helper: with a null expression pointer the raw
value is coerced by the selected type, otherwise an `Expression` object
is built from the decoded expression string, the raw value and the
type.  An out-of-range type index faults (Python `IndexError`). -/
def _expr (e : Option expression) (value : Rat) (typeid : Int) : Except Err EValue :=
  match _expr_types typeid with
  | none => .error .oobRead
  | some t =>
    match e with
    | none => .ok (.plain (coerceType t value))
    | some ex => .ok (.expr (_str ex.string) value t)

/-! Parameter type discriminators.  Modelled from the spec: the
tagged-union discriminators of section 3 / 4.2 (logical, integer,
double, string, constraint and the array forms); their numeric values
follow the engine enum declarations that the source imports from
`cern.cpymad.clibmadx` (not under `src/`).  The source relies on the
scalar tags being `0/1/2` (used directly as index into `_expr_types`)
and on `type - PARAM_TYPE_LOGICAL_ARRAY` being the element type index
for the array forms. -/

def PARAM_TYPE_LOGICAL : Int := 0
def PARAM_TYPE_INTEGER : Int := 1
def PARAM_TYPE_DOUBLE : Int := 2
def PARAM_TYPE_STRING : Int := 3
def PARAM_TYPE_CONSTRAINT : Int := 4
def PARAM_TYPE_LOGICAL_ARRAY : Int := 10
def PARAM_TYPE_INTEGER_ARRAY : Int := 11
def PARAM_TYPE_DOUBLE_ARRAY : Int := 12
def PARAM_TYPE_STRING_ARRAY : Int := 13
def CONSTR_TYPE_MIN : Int := 1
def CONSTR_TYPE_MAX : Int := 2
def CONSTR_TYPE_BOTH : Int := 3
def CONSTR_TYPE_VALUE : Int := 4

/-- The MAD-X `command_parameter` struct, restricted to the fields the
binding reads.  `double_array` models the `curr` used entries of the
numeric array; `expr_list` is either the null pointer or the list of
its `curr` (possibly null) expression pointers; `m_string` the `curr`
entries of the string array. -/
structure command_parameter where
  name : CStr
  type : Int
  c_type : Int
  double_value : Rat
  string : CStr
  expr : Option expression
  min_expr : Option expression
  max_expr : Option expression
  c_min : Rat
  c_max : Rat
  expr_list : Option (List (Option expression))
  double_array : List Rat
  m_string : List CStr
deriving DecidableEq

/-- The four `Constraint(...)` construction patterns of the source
(`cern.cpymad.types.Constraint` with `min` / `max` / both / `val`). -/
inductive PConstraint where
  | cmin (lo : EValue)
  | cmax (hi : EValue)
  | cboth (lo : EValue) (hi : EValue)
  | cval (v : EValue)
deriving DecidableEq

/-- One decoded `ParameterValue` (spec section 3). -/
inductive ParamValue where
  | scalar (e : EValue)
  | str (s : Option String)
  | constraint (c : PConstraint)
  | numArray (xs : List EValue)
  | strArray (xs : List (Option String))
deriving DecidableEq

/-- The numeric-array element loop of `_get_param_value`:
`[_expr(NULL if par.expr_list is NULL else par.expr_list.list[i],
par.double_array.a[i], par.type - PARAM_TYPE_LOGICAL_ARRAY) for i in
xrange(par.double_array.curr)]`.  The index `i` runs over the numeric
array; when the expression list is present the source indexes it
without a bounds check, so a read past its logical end is undefined
behaviour in C, modelled as the fault `Err.oobRead`. -/
def decodeArray (tid : Int) (el : Option (List (Option expression))) :
    List Rat → Nat → Except Err (List EValue)
  | [], _ => .ok []
  | v :: vs, i => do
    let e ← (match el with
      | none => Except.ok (none : Option expression)
      | some l =>
        match l.get? i with
        | some e => Except.ok e
        | none => Except.error Err.oobRead)
    let x ← _expr e v tid
    let xs ← decodeArray tid el vs (i + 1)
    pure (x :: xs)

/-- The source's `_get_param_value`: decode one tagged parameter record
into a `ParamValue`, following the if-chain of the source; a constraint
record whose `c_type` matches none of the four constraint kinds falls
through to the trailing `ValueError`, exactly as in the source. -/
def _get_param_value (par : command_parameter) : Except Err ParamValue :=
  if par.type = PARAM_TYPE_LOGICAL ∨ par.type = PARAM_TYPE_INTEGER ∨
      par.type = PARAM_TYPE_DOUBLE then
    (_expr par.expr par.double_value par.type).map ParamValue.scalar
  else if par.type = PARAM_TYPE_STRING then
    .ok (.str (_str par.string))
  else if par.type = PARAM_TYPE_CONSTRAINT ∧ par.c_type = CONSTR_TYPE_MIN then
    (_expr par.min_expr par.c_min PARAM_TYPE_DOUBLE).map
      (fun lo => .constraint (.cmin lo))
  else if par.type = PARAM_TYPE_CONSTRAINT ∧ par.c_type = CONSTR_TYPE_MAX then
    (_expr par.max_expr par.c_max PARAM_TYPE_DOUBLE).map
      (fun hi => .constraint (.cmax hi))
  else if par.type = PARAM_TYPE_CONSTRAINT ∧ par.c_type = CONSTR_TYPE_BOTH then do
    let lo ← _expr par.min_expr par.c_min PARAM_TYPE_DOUBLE
    let hi ← _expr par.max_expr par.c_max PARAM_TYPE_DOUBLE
    pure (.constraint (.cboth lo hi))
  else if par.type = PARAM_TYPE_CONSTRAINT ∧ par.c_type = CONSTR_TYPE_VALUE then
    (_expr par.expr par.double_value PARAM_TYPE_DOUBLE).map
      (fun v => .constraint (.cval v))
  else if par.type = PARAM_TYPE_INTEGER_ARRAY ∨ par.type = PARAM_TYPE_DOUBLE_ARRAY then
    (decodeArray (par.type - PARAM_TYPE_LOGICAL_ARRAY) par.expr_list
      par.double_array 0).map ParamValue.numArray
  else if par.type = PARAM_TYPE_STRING_ARRAY then
    .ok (.strArray (par.m_string.map _str))
  else
    .error (.invalidParameterType par.type)

/-- A value stored in a decoded Python dictionary: an injected string
field (possibly `None`), an injected raw double, or a decoded parameter
value. -/
inductive Entry where
  | pstr (s : Option String)
  | num (x : Rat)
  | param (v : ParamValue)
deriving DecidableEq

/-- A Python dictionary with keys of type `κ`, as its ordered
association list (insertion order, unique keys when built by
`pyinsert`). -/
def PyDict (κ α : Type) : Type := List (κ × α)

/-- Python `d[k] = v`: replace the value of an existing key in place,
else append the new pair. -/
def pyinsert {κ α : Type} [DecidableEq κ] (d : List (κ × α)) (k : κ) (v : α) :
    List (κ × α) :=
  if d.any (fun p => decide (p.1 = k)) then
    d.map (fun p => if p.1 = k then (k, v) else p)
  else
    d ++ [(k, v)]

/-- Python `d[k]` lookup (first — and, for `pyinsert`-built
dictionaries, only — entry with the key). -/
def pylookup {κ α : Type} [DecidableEq κ] (d : List (κ × α)) (k : κ) : Option α :=
  match d with
  | [] => none
  | p :: ps => if p.1 = k then some p.2 else pylookup ps k

/-- A decoded command mapping: Python dict from parameter name (a
decoded C string, hence possibly `None`) to stored entry. -/
abbrev Dict := List (Option String × Entry)

/-- The MAD-X `command` struct, restricted to the fields the binding
reads: the `curr` parameter records in stored order, and the `beam_def`
flag consulted by `get_beam`. -/
structure command where
  par : List command_parameter
  beam_def : Bool
deriving DecidableEq

/-- The parameter loop of `_parse_command`: iterate the records in
stored order, decode each, and assign `res[name] = value`. -/
def parseParams : List command_parameter → Dict → Except Err Dict
  | [], res => .ok res
  | p :: ps, res =>
    match _get_param_value p with
    | .error e => .error e
    | .ok v => parseParams ps (pyinsert res (_str p.name) (.param v))

/-- The source's `_parse_command`: the values of all parameters of a
command as a name-to-value dictionary. -/
def _parse_command (cmd : command) : Except Err Dict :=
  parseParams cmd.par []

/-- The MAD-X `element` struct, restricted to the fields the binding
reads (`def_` is the backing command definition). -/
structure element where
  name : CStr
  length : Rat
  def_ : command
deriving DecidableEq

/-- The source's `_get_element`: the command mapping of the element's
definition with the `name` and `length` fields injected. -/
def _get_element (e : element) : Except Err Dict :=
  (_parse_command e.def_).map (fun d =>
    pyinsert (pyinsert d (some ("name")) (.pstr (_str e.name)))
      (some ("length")) (.num e.length))

/-- Reference to a nested sequence from a node; the binding reads only
the `name` field of the pointed-to sequence, so the reference is
modelled by that name (this breaks the pointer cycle between nodes and
sequences). -/
structure SeqRef where
  name : CStr
deriving DecidableEq

/-- The MAD-X `node` struct, restricted to the fields the binding
reads: the element pointer, the nested-sequence pointer and the base
type name. -/
structure node where
  p_elem : Option element
  p_sequ : Option SeqRef
  base_name : CStr
deriving DecidableEq

/-- The source's `_get_node`: element nodes decode via `_get_element`
plus an injected `type` field; sequence nodes decode to the minimal
`{type, sequence}` mapping; a node with neither backing pointer raises
`RuntimeError` (`EmptyNode`). -/
def _get_node (n : node) : Except Err Dict :=
  match n.p_elem with
  | some e =>
    (_get_element e).map (fun d =>
      pyinsert d (some ("type")) (.pstr (_str n.base_name)))
  | none =>
    match n.p_sequ with
    | some s =>
      .ok (pyinsert (pyinsert [] (some ("type")) (.pstr (some ("sequence"))))
        (some ("sequence")) (.pstr (_str s.name)))
    | none => .error .emptyNode

/-- The twiss table reference of a sequence; the binding reads only its
`name` field. -/
structure twtab where
  name : CStr
deriving DecidableEq

/-- The MAD-X `sequence` struct, restricted to the fields the binding
reads: name, the twiss validity flag and table reference, the attached
beam command, the declared node list (`nodes.nodes`, `nodes.curr`) and
the expanded node array (`all_nodes`, `n_nodes`). -/
structure sequence where
  name : CStr
  tw_valid : Bool
  tw_table : Option twtab
  beam : Option command
  nodes : List node
  all_nodes : List node
deriving DecidableEq

/-- The MAD-X `sequence_list` global: the name index (`list`) and the
sequence array (`sequs`), each holding the `curr` used entries. -/
structure sequence_list where
  list : List String
  sequs : List sequence
deriving DecidableEq

/-- Position search in a name list, carrying the running index. -/
def name_list_posAux (name : String) : List String → Nat → Int
  | [], _ => -1
  | x :: xs, i => if x = name then (i : Int) else name_list_posAux name xs (i + 1)

/-- Modelled from the spec: the native name-index lookup
`name_list_pos` (declared in `cern.cpymad.clibmadx`, implemented in the
external engine, hence not under `src/`).  Per spec section 4.4 it
returns the position of the matching entry in the name index, or `-1`
on a miss — never a default entry. -/
def name_list_pos (name : String) (names : List String) : Int :=
  name_list_posAux name names 0

/-- One native table record in the table register; the binding reads
its column name list. -/
structure table_rec where
  columns : List String
deriving DecidableEq

/-- The native `table_register` global: name index plus table records. -/
structure table_register_t where
  names : List String
  tables : List table_rec
deriving DecidableEq

/-- The native `column_info` record returned by `table_get_column`:
element count, datatype discriminator character and the raw data
pointer (an address into engine memory). -/
structure column_info where
  length : Nat
  datatype : Char
  data : Nat
deriving DecidableEq

/-- Result of `get_table_column`: either a non-owning numeric buffer
view (the engine memory address it aliases, plus its element count —
no copy is made), or a freshly materialized string array. -/
inductive ColumnResult where
  | doubleView (addr : Nat) (length : Nat)
  | stringArray (xs : List String)
deriving DecidableEq

/-- The process-wide engine state visible to the binding.  `started`
records whether `madx_start` has been called (the start/finish
bracket); the remaining fields model the native globals and native
query routines the module calls: the current sequence pointer, the
sequence list returned by `madextern_get_sequence_list`, and abstract
native functions (`table_exists`, `table_get_header`, the table
register, `table_get_column`, reads of `char*` entries from engine
memory, and the expression-evaluator pipeline result). -/
structure MadxState where
  started : Bool
  current_sequ : Option sequence
  seqs : sequence_list
  table_exists_fn : String → Bool
  table_get_header : String → List CStr
  table_register : table_register_t
  table_get_column : String → String → column_info
  read_str : Nat → Nat → String
  eval_native : String → Rat

/-- The source's `start()`: initialize MAD-X (`madx_start`); the only
state the binding itself tracks is that the engine is now started. -/
def start (st : MadxState) : MadxState :=
  { st with started := true }

/-- The source's `finish()`: cleanup MAD-X (`madx_finish`). -/
def finish (st : MadxState) : MadxState :=
  { st with started := false }

/-- The source's `input(cmd)`: encode the command text and hand it to
the native `stolower_nq` / `pro_input` pair.  The native interpreter
transition itself is external; the modelled result is the byte string
passed across the boundary. -/
def input (_st : MadxState) (cmd : Option String) : String :=
  cstrVal (_cstr cmd)

/-- Python `str.lower()` restricted to ASCII (all inputs the binding
handles are ASCII command text). -/
def pyLower (s : String) : String :=
  String.mk (s.data.map Char.toLower)

/-- The source's `evaluate(cmd)`: lower-case the expression text,
encode it and run it through the native pre_split / mysplit /
make_expression / expression_value pipeline, modelled as the abstract
native evaluator of the state. -/
def evaluate (st : MadxState) (cmd : String) : Rat :=
  st.eval_native (cstrVal (_cstr (some (pyLower cmd))))

/-- The source's `_find_sequence`: look the encoded name up in the
global sequence list; a miss raises `ValueError` (`NotFound` carrying
the queried name), a hit returns the sequence at the found index. -/
def _find_sequence (st : MadxState) (sequence_name : Option String) :
    Except Err sequence :=
  let key := cstrVal (_cstr sequence_name)
  let seqs := st.seqs
  let index := name_list_pos key seqs.list
  if index = -1 then
    .error (.notFound sequence_name)
  else
    match seqs.sequs.get? index.toNat with
    | some s => .ok s
    | none => .error .oobRead

/-- The source's `sequence_exists`: true iff `_find_sequence` succeeds;
only `ValueError` (the not-found case) is caught. -/
def sequence_exists (st : MadxState) (sequence_name : Option String) :
    Except Err Bool :=
  match _find_sequence st sequence_name with
  | .ok _ => .ok true
  | .error (.notFound _) => .ok false
  | .error e => .error e

/-- The source's `get_twiss`: resolve the sequence, fail with
`RuntimeError` (`InvalidState`) while its twiss table is not valid,
else return the decoded twiss table name. -/
def get_twiss (st : MadxState) (sequence_name : Option String) :
    Except Err (Option String) := do
  let seq ← _find_sequence st sequence_name
  if seq.tw_valid then
    match seq.tw_table with
    | some t => pure (_str t.name)
    | none => .error .nullDeref
  else
    .error (.invalidState ("TWISS table invalid."))

/-- Python `str(x)` on a possibly absent string. -/
def pyStr (s : Option String) : String :=
  match s with
  | some s => s
  | none => "None"

/-- The source's `get_beam`: resolve the sequence, fail with
`RuntimeError` (`InvalidState`) when no beam is attached or the beam is
not defined, else decode the beam command. -/
def get_beam (st : MadxState) (sequence_name : Option String) :
    Except Err Dict := do
  let seq ← _find_sequence st sequence_name
  match seq.beam with
  | none => .error (.invalidState ("No beam attached to " ++ pyStr sequence_name))
  | some b =>
    if b.beam_def then
      _parse_command b
    else
      .error (.invalidState ("No beam attached to " ++ pyStr sequence_name))

/-- The source's `get_current_sequence`: decoded name of the active
sequence, `RuntimeError` (`InvalidState`) when none is active. -/
def get_current_sequence (st : MadxState) : Except Err (Option String) :=
  match st.current_sequ with
  | none => .error (.invalidState ("No active sequence!"))
  | some s => .ok (_str s.name)

/-- The source's `get_sequences`: decoded names of all sequences in
memory. -/
def get_sequences (st : MadxState) : List (Option String) :=
  st.seqs.sequs.map (fun s => _str s.name)

/-- The source's `table_exists`: native existence check on the encoded
name. -/
def table_exists (st : MadxState) (table : Option String) : Bool :=
  st.table_exists_fn (cstrVal (_cstr table))

/-- The source's `get_table_columns`: look the encoded table name up in
the table register (`ValueError` / `NotFound` on a miss, never a
default) and return the raw column name list of the found record. -/
def get_table_columns (st : MadxState) (table : Option String) :
    Except Err (List String) :=
  let key := cstrVal (_cstr table)
  let index := name_list_pos key st.table_register.names
  if index = -1 then
    .error (.notFound table)
  else
    match st.table_register.tables.get? index.toNat with
    | some t => .ok t.columns
    | none => .error .oobRead

/-- The source's `get_table_column`: fetch the native column record and
dispatch on its datatype discriminator.  `d` wraps the live engine
buffer in a non-owning view of the column's element count (no copy);
`S` materializes a fresh array of the strings read from engine memory;
`V` raises `ValueError` (`ColumnNotFound` naming column and table); any
other tag raises `RuntimeError` (`UnknownColumnType` naming the tag and
column). -/
def get_table_column (st : MadxState) (table : Option String)
    (column : Option String) : Except Err ColumnResult :=
  let info := st.table_get_column (cstrVal (_cstr table)) (cstrVal (_cstr column))
  if info.datatype = 'd' then
    .ok (.doubleView info.data info.length)
  else if info.datatype = 'S' then
    .ok (.stringArray ((List.range info.length).map (fun i => st.read_str info.data i)))
  else if info.datatype = 'V' then
    .error (.columnNotFound column table)
  else
    .error (.unknownColumnType info.datatype column)

/-- Sequential decoding of a node list, mirroring the list
comprehensions of `get_elements` / `get_expanded_elements` (left to
right, aborting on the first error). -/
def decodeNodes : List node → Except Err (List Dict)
  | [] => .ok []
  | n :: ns => do
    let d ← _get_node n
    let ds ← decodeNodes ns
    pure (d :: ds)

/-- The source's `get_elements`: decode every node of the resolved
sequence's declared node list, in declaration order. -/
def get_elements (st : MadxState) (sequence_name : Option String) :
    Except Err (List Dict) := do
  let seq ← _find_sequence st sequence_name
  decodeNodes seq.nodes

/-- The source's `get_expanded_elements`: decode every node of the
resolved sequence's expanded node array, in expanded order. -/
def get_expanded_elements (st : MadxState) (sequence_name : Option String) :
    Except Err (List Dict) := do
  let seq ← _find_sequence st sequence_name
  decodeNodes seq.all_nodes

/-- Python whitespace predicate used by `str.split()` (ASCII range; the
header lines the binding parses are ASCII). -/
def pyIsSpace (c : Char) : Bool :=
  c = ' ' ∨ c = '\t' ∨ c = '\n' ∨ c = '\r' ∨ c = '\x0b' ∨ c = '\x0c'

/-- Python `str.split(None, maxsplit)` token loop, on a character list
whose leading whitespace has already been stripped: runs of whitespace
separate tokens; once `maxsplit` splits have been made the remainder
(trailing whitespace included) is the final token. -/
def splitWsCore : Nat → List Char → List (List Char)
  | _, [] => []
  | 0, c :: rest => [c :: rest]
  | m + 1, c :: rest =>
    ((c :: rest).takeWhile (fun x => !pyIsSpace x)) ::
      splitWsCore m (List.dropWhile pyIsSpace
        ((c :: rest).dropWhile (fun x => !pyIsSpace x)))

/-- Python `s.split(None, maxsplit)`. -/
def pysplit (s : String) (maxsplit : Nat) : List String :=
  (splitWsCore maxsplit (List.dropWhile pyIsSpace s.data)).map (fun l => String.mk l)

/-- Numeric value of a digit run. -/
def digitsToNat (ds : List Char) : Nat :=
  ds.foldl (fun a c => a * 10 + (c.toNat - 48)) 0

/-- Syntactic decomposition of a finite Python float literal: sign,
integer digits, fractional digits, and the (possibly empty) exponent
with its sign. -/
structure FloatParts where
  negative : Bool
  intPart : List Char
  fracPart : List Char
  expNegative : Bool
  expDigits : List Char
deriving DecidableEq

/-- Character-level acceptance of a Python float literal (optional
surrounding whitespace, optional sign, digits with an optional
fractional part, an optional decimal exponent); anything else — in
particular a raw value with interior whitespace — is rejected. -/
def pyfloatParts (cs0 : List Char) : Option FloatParts :=
  let cs := cs0.dropWhile pyIsSpace
  let cs := (cs.reverse.dropWhile pyIsSpace).reverse
  let sr : Bool × List Char :=
    match cs with
    | '+' :: r => (false, r)
    | '-' :: r => (true, r)
    | _ => (false, cs)
  let ip := sr.2.takeWhile Char.isDigit
  let cs1 := sr.2.dropWhile Char.isDigit
  let fr : List Char × List Char :=
    match cs1 with
    | '.' :: r => (r.takeWhile Char.isDigit, r.dropWhile Char.isDigit)
    | _ => ([], cs1)
  if ip = [] ∧ fr.1 = [] then none
  else
    match fr.2 with
    | [] => some { negative := sr.1, intPart := ip, fracPart := fr.1,
                   expNegative := false, expDigits := [] }
    | 'e' :: r => pyfloatExpParts sr.1 ip fr.1 r
    | 'E' :: r => pyfloatExpParts sr.1 ip fr.1 r
    | _ => none
where
  /-- Exponent part of a Python float literal. -/
  pyfloatExpParts (neg : Bool) (ip fp : List Char) (r : List Char) :
      Option FloatParts :=
    let er : Bool × List Char :=
      match r with
      | '+' :: t => (false, t)
      | '-' :: t => (true, t)
      | _ => (false, r)
    let ed := er.2.takeWhile Char.isDigit
    let rest := er.2.dropWhile Char.isDigit
    if ed = [] ∨ rest ≠ [] then none
    else some { negative := neg, intPart := ip, fracPart := fp,
                expNegative := er.1, expDigits := ed }

/-- Numeric value of a decomposed float literal (exact rational
arithmetic standing in for the IEEE double). -/
def floatVal (p : FloatParts) : Rat :=
  let mant : Rat := (digitsToNat (p.intPart ++ p.fracPart) : Rat) /
    ((10 : Rat) ^ p.fracPart.length)
  let scaled : Rat :=
    if p.expNegative then mant / ((10 : Rat) ^ digitsToNat p.expDigits)
    else mant * ((10 : Rat) ^ digitsToNat p.expDigits)
  if p.negative then -scaled else scaled

/-- Python `float(s)` on finite decimal literals; a rejected literal is
the `ValueError` case, modelled as `none`. -/
def pyfloat (s : String) : Option Rat :=
  (pyfloatParts s.data).map floatVal

/-- Python `value[1:-1]`: the string without its first and last
character. -/
def pySlice1m1 (s : String) : String :=
  String.mk ((s.data.drop 1).dropLast)

/-- Whether a format code ends in the letter given (Python
`kind.endswith(c)` for a one-character suffix). -/
def endsInChar (s : String) (c : Char) : Bool :=
  match s.data.getLast? with
  | some x => x = c
  | none => false

/-- A parsed header value: float for `%le`-tagged values, text
otherwise. -/
inductive HeaderVal where
  | num (x : Rat)
  | str (s : String)
deriving DecidableEq

/-- The source's `_split_header_line`: decode the line, split it into
the fixed four-field layout (at most three splits, so the raw value is
the entire remainder), then dispatch on the format code: `%le` parses
the raw value as a float (`ValueError` when it is not a float literal),
a code ending in `s` strips the first and last character (the
surrounding quotes), anything else passes the raw value through.  A
line that does not yield exactly four fields fails unpacking
(`ValueError`); a null line pointer faults. -/
def _split_header_line (header_line : CStr) : Except Err (String × HeaderVal) :=
  match header_line with
  | .null => .error .nullDeref
  | .str s =>
    match pysplit s 3 with
    | [_, key, kind, value] =>
      if kind = "%le" then
        match pyfloat value with
        | some x => .ok (key, .num x)
        | none => .error (.floatParseError value)
      else if endsInChar kind 's' then
        .ok (key, .str (pySlice1m1 value))
      else
        .ok (key, .str value)
    | _ => .error .unpackError

/-- Sequential parsing of the header lines, mirroring the list
comprehension in `get_table_summary`. -/
def parseHeader : List CStr → Except Err (List (String × HeaderVal))
  | [] => .ok []
  | l :: ls => do
    let p ← _split_header_line l
    let ps ← parseHeader ls
    pure (p :: ps)

/-- The source's `get_table_summary`: parse every native header line of
the table and build the key-to-value dictionary (`dict(pairs)`, later
duplicates winning). -/
def get_table_summary (st : MadxState) (table : Option String) :
    Except Err (List (String × HeaderVal)) := do
  let header := st.table_get_header (cstrVal (_cstr table))
  let pairs ← parseHeader header
  pure (pairs.foldl (fun d p => pyinsert d p.1 p.2) [])

/-- Equality of fallible results is decidable whenever both component
types have decidable equality (needed to evaluate the concrete
witnesses below). -/
instance {ε α : Type} [DecidableEq ε] [DecidableEq α] : DecidableEq (Except ε α) :=
  fun a b =>
  match a, b with
  | .ok x, .ok y =>
    if h : x = y then isTrue (by rw [h])
    else isFalse (by intro hc; cases hc; exact h rfl)
  | .error x, .error y =>
    if h : x = y then isTrue (by rw [h])
    else isFalse (by intro hc; cases hc; exact h rfl)
  | .ok _, .error _ => isFalse (by intro hc; cases hc)
  | .error _, .ok _ => isFalse (by intro hc; cases hc)

/-! Dictionary lemmas: Python assignment followed by lookup. -/

theorem pylookup_eq_none_of_not_any {κ α : Type} [DecidableEq κ]
    (d : List (κ × α)) (k : κ) (h : d.any (fun p => decide (p.1 = k)) = false) :
    pylookup d k = none := by
  induction d with
  | nil => rfl
  | cons p ps ih =>
    simp only [List.any_cons, Bool.or_eq_false_iff] at h
    have hk : ¬ p.1 = k := of_decide_eq_false h.1
    simp [pylookup, hk, ih h.2]

theorem pylookup_map_replace {κ α : Type} [DecidableEq κ]
    (d : List (κ × α)) (k : κ) (v : α)
    (h : d.any (fun p => decide (p.1 = k)) = true) :
    pylookup (d.map (fun p => if p.1 = k then (k, v) else p)) k = some v := by
  induction d with
  | nil => simp at h
  | cons p ps ih =>
    by_cases hk : p.1 = k
    · simp [pylookup, hk]
    · simp only [List.any_cons, Bool.or_eq_true_iff] at h
      have h2 : ps.any (fun p => decide (p.1 = k)) = true := by
        rcases h with h | h
        · exact absurd (of_decide_eq_true h) hk
        · exact h
      simp [pylookup, hk, ih h2]

theorem pylookup_map_replace_ne {κ α : Type} [DecidableEq κ]
    (d : List (κ × α)) (k j : κ) (v : α) (h : j ≠ k) :
    pylookup (d.map (fun p => if p.1 = k then (k, v) else p)) j = pylookup d j := by
  induction d with
  | nil => rfl
  | cons p ps ih =>
    by_cases hk : p.1 = k
    · have hj : ¬ p.1 = j := by rw [hk]; exact fun hc => h hc.symm
      have hkj : ¬ k = j := fun hc => h hc.symm
      simp [pylookup, hk, hj, hkj, ih]
    · simp [pylookup, hk, ih]

theorem pylookup_append_single_ne {κ α : Type} [DecidableEq κ]
    (d : List (κ × α)) (k j : κ) (v : α) (h : j ≠ k) :
    pylookup (d ++ [(k, v)]) j = pylookup d j := by
  induction d with
  | nil =>
    have hkj : ¬ k = j := fun hc => h hc.symm
    simp [pylookup, hkj]
  | cons p ps ih =>
    by_cases hp : p.1 = j
    · simp [pylookup, hp]
    · simp [pylookup, hp, ih]

theorem pylookup_append_single_self {κ α : Type} [DecidableEq κ]
    (d : List (κ × α)) (k : κ) (v : α) (h : pylookup d k = none) :
    pylookup (d ++ [(k, v)]) k = some v := by
  induction d with
  | nil => simp [pylookup]
  | cons p ps ih =>
    simp only [pylookup] at h ⊢
    by_cases hp : p.1 = k
    · simp [hp] at h
    · simp only [hp, if_false] at h ⊢
      exact ih h

theorem pylookup_pyinsert_self {κ α : Type} [DecidableEq κ]
    (d : List (κ × α)) (k : κ) (v : α) :
    pylookup (pyinsert d k v) k = some v := by
  unfold pyinsert
  cases hb : d.any (fun p => decide (p.1 = k)) with
  | true =>
    simp only [if_true]
    exact pylookup_map_replace d k v hb
  | false =>
    simp only [Bool.false_eq_true, if_false]
    exact pylookup_append_single_self d k v (pylookup_eq_none_of_not_any d k hb)

theorem pylookup_pyinsert_ne {κ α : Type} [DecidableEq κ]
    (d : List (κ × α)) (k j : κ) (v : α) (h : j ≠ k) :
    pylookup (pyinsert d k v) j = pylookup d j := by
  unfold pyinsert
  cases hb : d.any (fun p => decide (p.1 = k)) with
  | true =>
    simp only [if_true]
    exact pylookup_map_replace_ne d k j v h
  | false =>
    simp only [Bool.false_eq_true, if_false]
    exact pylookup_append_single_ne d k j v h

/-! Claim C4: the Value Marshaller round-trip. -/

/-- C4: encoding any host string through the Value Marshaller and then
decoding it yields the original string; encoding the absent host value
yields the engine's empty string (never a null pointer); decoding the
engine's null string yields the absent host value, not the empty
string, so absent and empty stay distinguishable. -/
theorem c4_marshaller_roundtrip :
    (∀ s : String, _str (_cstr (some s)) = some s) ∧
    _cstr none = CStr.str ("") ∧
    _cstr none ≠ CStr.null ∧
    _str CStr.null = none ∧
    _str CStr.null ≠ some ("") :=
  ⟨fun _ => rfl, rfl, by decide, rfl, by decide⟩

/-! Claim C8: unrecognized parameter type tags. -/

/-- C8: a parameter record whose type tag is none of the recognized
discriminators (logical 0, integer 1, double 2, string 3, constraint 4,
integer-array 11, double-array 12, string-array 13) makes the
Parameter Variant Decoder fail with `InvalidParameterType` carrying the
raw tag, never silently coercing the record to any variant. -/
theorem c8_unknown_param_type (par : command_parameter)
    (h : par.type ∉ ([0, 1, 2, 3, 4, 11, 12, 13] : List Int)) :
    _get_param_value par = .error (.invalidParameterType par.type) := by
  simp only [List.mem_cons, List.mem_singleton, not_or] at h
  obtain ⟨h0, h1, h2, h3, h4, h11, h12, h13⟩ := h
  simp [_get_param_value, PARAM_TYPE_LOGICAL, PARAM_TYPE_INTEGER,
    PARAM_TYPE_DOUBLE, PARAM_TYPE_STRING, PARAM_TYPE_CONSTRAINT,
    PARAM_TYPE_INTEGER_ARRAY, PARAM_TYPE_DOUBLE_ARRAY,
    PARAM_TYPE_STRING_ARRAY, h0, h1, h2, h3, h4, h11, h12, h13]

/-- Concrete raw record with the (unhandled) logical-array tag 10. -/
def c8par : command_parameter :=
  { name := .null, type := 10, c_type := 0, double_value := 0,
    string := .null, expr := none, min_expr := none, max_expr := none,
    c_min := 0, c_max := 0, expr_list := none, double_array := [],
    m_string := [] }

/-- Witness for C8 at the concrete tag 10. -/
theorem c8_witness : _get_param_value c8par = .error (.invalidParameterType 10) :=
  c8_unknown_param_type c8par (by decide)

/-! Claim C10: element branch precedence in the node decoder. -/

/-- C10: when both the element pointer and the nested-sequence pointer
of a node are non-null, the node decoder takes the element branch (the
element decoding plus the injected base-type tag) and the
nested-sequence pointer is ignored entirely. -/
theorem c10_element_precedence (n : node) (e : element) (s : SeqRef)
    (h1 : n.p_elem = some e) (h2 : n.p_sequ = some s) :
    _get_node n = (_get_element e).map
      (fun d => pyinsert d (some ("type")) (.pstr (_str n.base_name))) ∧
    _get_node n = _get_node { n with p_sequ := none } := by
  cases n with
  | mk pe ps bn =>
    cases h1
    cases h2
    exact ⟨rfl, rfl⟩

/-- Concrete element for the C10 witness. -/
def c10elem : element :=
  { name := .str ("q1"), length := 1, def_ := { par := [], beam_def := false } }

/-- Concrete node with both backing pointers set. -/
def c10node : node :=
  { p_elem := some c10elem, p_sequ := some { name := .str ("sub") },
    base_name := .str ("quadrupole") }

/-- Witness for C10 at a concrete node with both pointers non-null. -/
theorem c10_witness : _get_node c10node = _get_node { c10node with p_sequ := none } :=
  (c10_element_precedence c10node c10elem { name := .str ("sub") } rfl rfl).2

/-! Claim C5: node decoding over sequence traversals. -/

/-- C5: for every node (as decoded during original-order and
expanded-order traversals alike): an element node decodes to the
element's command mapping with the `name`, `length` and base-type-tag
(`type`) fields injected; a sequence node decodes to a mapping holding
exactly the `sequence` type marker and the nested sequence's name,
never element-shaped fields; a node with neither backing pointer is a
fatal `EmptyNode` error, never silently dropped. -/
theorem c5_node_decoding (n : node) :
    (∀ e, n.p_elem = some e →
      _get_node n = (_parse_command e.def_).map (fun d =>
        pyinsert (pyinsert (pyinsert d (some ("name")) (.pstr (_str e.name)))
          (some ("length")) (.num e.length))
          (some ("type")) (.pstr (_str n.base_name)))) ∧
    (∀ s, n.p_elem = none → n.p_sequ = some s →
      _get_node n = .ok [((some ("type")), .pstr (some ("sequence"))),
        ((some ("sequence")), .pstr (_str s.name))]) ∧
    (n.p_elem = none → n.p_sequ = none → _get_node n = .error .emptyNode) := by
  refine ⟨?_, ?_, ?_⟩
  · intro e h
    simp only [_get_node, h, _get_element]
    cases hp : _parse_command e.def_ with
    | error err => rfl
    | ok d => rfl
  · intro s h1 h2
    simp only [_get_node, h1, h2]
    rfl
  · intro h1 h2
    simp only [_get_node, h1, h2]

/-- Concrete sequence node for the C5 witness. -/
def c5node : node :=
  { p_elem := none, p_sequ := some { name := .str ("ring") }, base_name := .null }

/-- Witness for C5 at a concrete nested-sequence node. -/
theorem c5_witness : _get_node c5node =
    .ok [((some ("type")), .pstr (some ("sequence"))),
      ((some ("sequence")), .pstr (some ("ring")))] :=
  (c5_node_decoding c5node).2.1 { name := .str ("ring") } rfl rfl

/-! Claim C3: table column dispatch. -/

/-- C3: for every resolved table and column, `get_table_column`
dispatches on the per-column datatype discriminator: `d` returns a
non-owning numeric buffer view of exactly the column's element count
aliasing the engine memory address (no copy); `S` returns a newly
materialized array of the decoded strings; `V` fails with
`ColumnNotFound` naming the column and the table; any other tag fails
with `UnknownColumnType` naming the tag and the column; the four cases
are exhaustive, so no other outcome is possible. -/
theorem c3_table_column_dispatch (st : MadxState) (table column : Option String) :
    ((st.table_get_column (cstrVal (_cstr table)) (cstrVal (_cstr column))).datatype = 'd' →
      get_table_column st table column = .ok (.doubleView
        (st.table_get_column (cstrVal (_cstr table)) (cstrVal (_cstr column))).data
        (st.table_get_column (cstrVal (_cstr table)) (cstrVal (_cstr column))).length)) ∧
    ((st.table_get_column (cstrVal (_cstr table)) (cstrVal (_cstr column))).datatype = 'S' →
      get_table_column st table column = .ok (.stringArray
        ((List.range (st.table_get_column (cstrVal (_cstr table)) (cstrVal (_cstr column))).length).map
          (fun i => st.read_str
            (st.table_get_column (cstrVal (_cstr table)) (cstrVal (_cstr column))).data i)))) ∧
    ((st.table_get_column (cstrVal (_cstr table)) (cstrVal (_cstr column))).datatype = 'V' →
      get_table_column st table column = .error (.columnNotFound column table)) ∧
    ((st.table_get_column (cstrVal (_cstr table)) (cstrVal (_cstr column))).datatype ≠ 'd' →
      (st.table_get_column (cstrVal (_cstr table)) (cstrVal (_cstr column))).datatype ≠ 'S' →
      (st.table_get_column (cstrVal (_cstr table)) (cstrVal (_cstr column))).datatype ≠ 'V' →
      get_table_column st table column = .error (.unknownColumnType
        (st.table_get_column (cstrVal (_cstr table)) (cstrVal (_cstr column))).datatype column)) := by
  refine ⟨?_, ?_, ?_, ?_⟩
  · intro h
    simp [get_table_column, h]
  · intro h
    simp [get_table_column, h]
  · intro h
    simp [get_table_column, h]
  · intro h1 h2 h3
    simp [get_table_column, h1, h2, h3]

/-- Concrete engine state whose native column query returns a
double-typed column of two elements at address 64. -/
def c3state : MadxState :=
  { started := true, current_sequ := none,
    seqs := { list := [], sequs := [] },
    table_exists_fn := fun _ => false,
    table_get_header := fun _ => [],
    table_register := { names := [], tables := [] },
    table_get_column := fun _ _ => { length := 2, datatype := 'd', data := 64 },
    read_str := fun _ _ => "",
    eval_native := fun _ => 0 }

/-- Witness for C3: the double branch at a concrete state yields the
aliasing view with the column's address and element count. -/
theorem c3_witness : get_table_column c3state (some ("twiss")) (some ("x")) =
    .ok (.doubleView 64 2) :=
  (c3_table_column_dispatch c3state (some ("twiss")) (some ("x"))).1 rfl

/-! Claim C1: provenance attachment for numeric array parameters. -/

/-- Element type selected for a numeric array parameter
(`par.type - PARAM_TYPE_LOGICAL_ARRAY` indexing `_expr_types`). -/
def elemType (ty : Int) : TypeId :=
  if ty = PARAM_TYPE_INTEGER_ARRAY then .tint else .tfloat

/-- Decoding of one numeric array element from its value and its
(possibly null) parallel expression entry: a null entry gives the
plainly coerced value with no provenance, a non-null entry attaches the
decoded expression string as provenance. -/
def arrayElemSpec (t : TypeId) (e : Option expression) (v : Rat) : EValue :=
  match e with
  | none => .plain (coerceType t v)
  | some ex => .expr (_str ex.string) v t

theorem decodeArray_no_list (tid : Int) (t : TypeId) (ht : _expr_types tid = some t) :
    ∀ (vs : List Rat) (i : Nat),
      decodeArray tid none vs i = .ok (vs.map (fun v => .plain (coerceType t v))) := by
  intro vs
  induction vs with
  | nil => intro i; rfl
  | cons v vs ih =>
    intro i
    simp only [decodeArray, _expr, ht]
    rw [ih (i + 1)]
    rfl

theorem decodeArray_with_list (tid : Int) (t : TypeId) (ht : _expr_types tid = some t)
    (l : List (Option expression)) :
    ∀ (vs : List Rat) (i : Nat), vs.length + i ≤ l.length →
      decodeArray tid (some l) vs i =
        .ok ((vs.zip (l.drop i)).map (fun p => arrayElemSpec t p.2 p.1)) := by
  intro vs
  induction vs with
  | nil => intro i h; rfl
  | cons v vs ih =>
    intro i h
    have hi : i < l.length := by
      simp only [List.length_cons] at h
      omega
    have hg : l.get? i = some (l.get ⟨i, hi⟩) := List.get?_eq_get hi
    have hd : l.drop i = l.get ⟨i, hi⟩ :: l.drop (i + 1) :=
      List.drop_eq_getElem_cons hi
    have hrec := ih (i + 1) (by simp only [List.length_cons] at h; omega)
    simp only [decodeArray, hg]
    rw [hd, List.zip_cons_cons, List.map_cons]
    cases he : l.get ⟨i, hi⟩ with
    | none =>
      simp only [_expr, ht, arrayElemSpec]
      rw [hrec]
      rfl
    | some ex =>
      simp only [_expr, ht, arrayElemSpec]
      rw [hrec]
      rfl

/-- C1 (amended): for a numeric-array parameter whose parallel
expression list is absent (the null pointer), every element decodes
with no provenance attached and no fault occurs; when the expression
list is present and at least as long as the numeric array, the i-th
entry (when non-null) is attached as provenance to the i-th numeric
value, and null entries yield no provenance.  (As the counterexample
shows, a present-but-shorter expression list is read past its logical
end — an out-of-bounds fault — rather than being treated as absent.) -/
theorem c1_array_provenance (par : command_parameter)
    (harr : par.type = PARAM_TYPE_INTEGER_ARRAY ∨ par.type = PARAM_TYPE_DOUBLE_ARRAY) :
    (par.expr_list = none →
      _get_param_value par = .ok (.numArray (par.double_array.map
        (fun v => .plain (coerceType (elemType par.type) v))))) ∧
    (∀ l, par.expr_list = some l → par.double_array.length ≤ l.length →
      _get_param_value par = .ok (.numArray ((par.double_array.zip l).map
        (fun p => arrayElemSpec (elemType par.type) p.2 p.1)))) := by
  have ht : _expr_types (par.type - PARAM_TYPE_LOGICAL_ARRAY) = some (elemType par.type) := by
    rcases harr with h | h <;>
      simp [h, _expr_types, elemType, PARAM_TYPE_INTEGER_ARRAY,
        PARAM_TYPE_DOUBLE_ARRAY, PARAM_TYPE_LOGICAL_ARRAY]
  have hbranch : _get_param_value par =
      (decodeArray (par.type - PARAM_TYPE_LOGICAL_ARRAY) par.expr_list
        par.double_array 0).map ParamValue.numArray := by
    rcases harr with h | h <;>
      simp [_get_param_value, h, PARAM_TYPE_LOGICAL, PARAM_TYPE_INTEGER,
        PARAM_TYPE_DOUBLE, PARAM_TYPE_STRING, PARAM_TYPE_CONSTRAINT,
        PARAM_TYPE_INTEGER_ARRAY, PARAM_TYPE_DOUBLE_ARRAY, PARAM_TYPE_LOGICAL_ARRAY]
  constructor
  · intro hnone
    have h1 : decodeArray (par.type - PARAM_TYPE_LOGICAL_ARRAY) par.expr_list
        par.double_array 0 = .ok (par.double_array.map
          (fun v => .plain (coerceType (elemType par.type) v))) := by
      rw [hnone]
      exact decodeArray_no_list _ _ ht par.double_array 0
    rw [hbranch, h1]
    rfl
  · intro l hsome hlen
    have h1 : decodeArray (par.type - PARAM_TYPE_LOGICAL_ARRAY) par.expr_list
        par.double_array 0 = .ok ((par.double_array.zip l).map
          (fun p => arrayElemSpec (elemType par.type) p.2 p.1)) := by
      rw [hsome]
      have := decodeArray_with_list _ _ ht l par.double_array 0 (by omega)
      rw [List.drop_zero] at this
      exact this
    rw [hbranch, h1]
    rfl

/-- Concrete double-array record whose parallel expression list is
present but shorter (one entry) than the numeric array (two values). -/
def c1parShort : command_parameter :=
  { name := .str ("knl"), type := 12, c_type := 0, double_value := 0,
    string := .null, expr := none, min_expr := none, max_expr := none,
    c_min := 0, c_max := 0, expr_list := some [none],
    double_array := [1, 2], m_string := [] }

/-- Counterexample to C1 as stated: with a present-but-shorter parallel
expression list, the decoder reads the expression list at index 1,
past its logical end — an index-out-of-range fault — instead of
decoding the element with no provenance attached. -/
theorem c1_counterexample : _get_param_value c1parShort = .error .oobRead := by
  decide

/-- Concrete double-array record with an absent expression list. -/
def c1parAbsent : command_parameter :=
  { name := .str ("knl"), type := 12, c_type := 0, double_value := 0,
    string := .null, expr := none, min_expr := none, max_expr := none,
    c_min := 0, c_max := 0, expr_list := none,
    double_array := [1, 2], m_string := [] }

/-- Witness for C1 (amended) at a concrete absent-list record: both
elements decode plainly with no provenance and no fault. -/
theorem c1_witness : _get_param_value c1parAbsent =
    .ok (.numArray ([(1 : Rat), 2].map (fun v => .plain (coerceType (elemType 12) v)))) :=
  (c1_array_provenance c1parAbsent (Or.inr rfl)).1 rfl

/-! Claim C9: command decoding is last-write-wins on duplicate names. -/

theorem getLast?_cons_ne_none {α : Type} (a : α) (l : List α) :
    (a :: l).getLast? ≠ none := by
  induction l generalizing a with
  | nil => simp
  | cons b t ih =>
    rw [List.getLast?_cons_cons]
    exact ih b

theorem parseParams_lookup (k : Option String) :
    ∀ (l : List command_parameter) (acc d : Dict), parseParams l acc = .ok d →
      (((l.filter (fun p => decide (_str p.name = k))).getLast? = none →
        pylookup d k = pylookup acc k) ∧
       (∀ q, (l.filter (fun p => decide (_str p.name = k))).getLast? = some q →
        ∃ v, _get_param_value q = .ok v ∧ pylookup d k = some (.param v))) := by
  intro l
  induction l with
  | nil =>
    intro acc d h
    simp only [parseParams] at h
    cases h
    exact ⟨fun _ => rfl, fun q hq => by simp at hq⟩
  | cons p ps ih =>
    intro acc d h
    simp only [parseParams] at h
    cases hv : _get_param_value p with
    | error e => rw [hv] at h; cases h
    | ok v =>
      rw [hv] at h
      have IH := ih (pyinsert acc (_str p.name) (.param v)) d h
      by_cases hk : _str p.name = k
      · have hfc : (p :: ps).filter (fun q => decide (_str q.name = k)) =
            p :: ps.filter (fun q => decide (_str q.name = k)) :=
          List.filter_cons_of_pos (by simpa using hk)
        cases hfil : ps.filter (fun q => decide (_str q.name = k)) with
        | nil =>
          constructor
          · intro hnone
            rw [hfc, hfil] at hnone
            simp at hnone
          · intro q hq
            rw [hfc, hfil] at hq
            simp only [List.getLast?_singleton, Option.some.injEq] at hq
            cases hq
            refine ⟨v, hv, ?_⟩
            have hlast : (ps.filter (fun q => decide (_str q.name = k))).getLast? = none := by
              rw [hfil]; rfl
            rw [IH.1 hlast, ← hk]
            exact pylookup_pyinsert_self acc (_str p.name) (.param v)
        | cons q0 qs =>
          constructor
          · intro hnone
            rw [hfc, hfil, List.getLast?_cons_cons] at hnone
            exact absurd hnone (getLast?_cons_ne_none q0 qs)
          · intro q hq
            rw [hfc, hfil, List.getLast?_cons_cons] at hq
            have := IH.2 q
            rw [hfil] at this
            exact this hq
      · have hfc : (p :: ps).filter (fun q => decide (_str q.name = k)) =
            ps.filter (fun q => decide (_str q.name = k)) :=
          List.filter_cons_of_neg (by simpa using hk)
        have hne : k ≠ _str p.name := fun hc => hk hc.symm
        constructor
        · intro hnone
          rw [hfc] at hnone
          rw [IH.1 hnone]
          exact pylookup_pyinsert_ne acc (_str p.name) k (.param v) hne
        · intro q hq
          rw [hfc] at hq
          exact IH.2 q hq

/-- C9: the Command Decoder walks the parameter records in stored
order into a name-to-value mapping; on duplicate parameter names the
value decoded last in stored order is the one present in the resulting
mapping (last-write-wins), and a name with no record is absent. -/
theorem c9_last_write_wins (cmd : command) (d : Dict)
    (h : _parse_command cmd = .ok d) (k : Option String) :
    (((cmd.par.filter (fun p => decide (_str p.name = k))).getLast? = none →
      pylookup d k = none) ∧
     (∀ q, (cmd.par.filter (fun p => decide (_str p.name = k))).getLast? = some q →
      ∃ v, _get_param_value q = .ok v ∧ pylookup d k = some (.param v))) := by
  have hmain := parseParams_lookup k cmd.par [] d h
  exact ⟨fun hn => hmain.1 hn, hmain.2⟩

/-- First concrete record named `a` (value 1). -/
def c9parA : command_parameter :=
  { name := .str ("a"), type := 2, c_type := 0, double_value := 1,
    string := .null, expr := none, min_expr := none, max_expr := none,
    c_min := 0, c_max := 0, expr_list := none, double_array := [],
    m_string := [] }

/-- Second concrete record named `a` (value 2), stored later. -/
def c9parB : command_parameter :=
  { name := .str ("a"), type := 2, c_type := 0, double_value := 2,
    string := .null, expr := none, min_expr := none, max_expr := none,
    c_min := 0, c_max := 0, expr_list := none, double_array := [],
    m_string := [] }

/-- Concrete command with a duplicated parameter name. -/
def c9cmd : command := { par := [c9parA, c9parB], beam_def := false }

/-- The dictionary the decoder produces for `c9cmd`. -/
def c9dict : Dict := [((some ("a")), .param (.scalar (.plain (.f 2))))]

/-- Witness for C9: on the duplicated name, the mapping holds the value
of the record stored last. -/
theorem c9_witness : ∃ v, _get_param_value c9parB = .ok v ∧
    pylookup c9dict (some ("a")) = some (.param v) :=
  (c9_last_write_wins c9cmd c9dict (by decide) (some ("a"))).2 c9parB (by decide)

/-! Claim C7: lookup failure semantics for sequences. -/

theorem name_list_posAux_of_not_mem (n : String) :
    ∀ (names : List String) (i : Nat), n ∉ names →
      name_list_posAux n names i = -1 := by
  intro names
  induction names with
  | nil => intro i _; rfl
  | cons x xs ih =>
    intro i h
    have hx : ¬ x = n := by
      intro hc
      exact h (by rw [hc]; exact List.mem_cons_self n xs)
    have hxs : n ∉ xs := fun hc => h (List.mem_cons_of_mem x hc)
    simp only [name_list_posAux, hx, if_false]
    exact ih (i + 1) hxs

theorem name_list_pos_of_not_mem (n : String) (names : List String)
    (h : n ∉ names) : name_list_pos n names = -1 :=
  name_list_posAux_of_not_mem n names 0 h

/-- C7: for a sequence name whose encoding is not in the sequence
registry, `sequence_exists` returns false and `get_elements`,
`get_twiss` and `get_beam` each fail with the `NotFound` error carrying
the queried name — the lookup never produces a default entry on a
miss; additionally, for a name that does resolve to a sequence whose
twiss result is not valid, `get_twiss` fails with an `InvalidState`
error rather than returning a table name. -/
theorem c7_lookup_failures (st : MadxState) (nm : Option String) :
    (cstrVal (_cstr nm) ∉ st.seqs.list →
      _find_sequence st nm = .error (.notFound nm) ∧
      sequence_exists st nm = .ok false ∧
      get_elements st nm = .error (.notFound nm) ∧
      get_twiss st nm = .error (.notFound nm) ∧
      get_beam st nm = .error (.notFound nm)) ∧
    (∀ seq, _find_sequence st nm = .ok seq → seq.tw_valid = false →
      get_twiss st nm = .error (.invalidState ("TWISS table invalid."))) := by
  constructor
  · intro h
    have hpos : name_list_pos (cstrVal (_cstr nm)) st.seqs.list = -1 :=
      name_list_pos_of_not_mem _ _ h
    have hfind : _find_sequence st nm = .error (.notFound nm) := by
      simp [_find_sequence, hpos]
    refine ⟨hfind, ?_, ?_, ?_, ?_⟩
    · simp [sequence_exists, hfind]
    · simp [get_elements, hfind, Bind.bind, Except.bind]
    · simp [get_twiss, hfind, Bind.bind, Except.bind]
    · simp [get_beam, hfind, Bind.bind, Except.bind]
  · intro seq hfind htw
    simp [get_twiss, hfind, htw, Bind.bind, Except.bind]

/-- Concrete registered sequence whose twiss table is not valid. -/
def c7seq : sequence :=
  { name := .str ("seq1"), tw_valid := false, tw_table := none,
    beam := none, nodes := [], all_nodes := [] }

/-- Concrete engine state with exactly the sequence `seq1` in memory. -/
def c7state : MadxState :=
  { started := true, current_sequ := none,
    seqs := { list := ["seq1"], sequs := [c7seq] },
    table_exists_fn := fun _ => false,
    table_get_header := fun _ => [],
    table_register := { names := [], tables := [] },
    table_get_column := fun _ _ => { length := 0, datatype := 'V', data := 0 },
    read_str := fun _ _ => "",
    eval_native := fun _ => 0 }

/-- Witness for C7: the unknown name `nope` is reported absent and the
twiss request on the known-but-invalid sequence fails with the
invalid-state error. -/
theorem c7_witness :
    sequence_exists c7state (some ("nope")) = .ok false ∧
    get_twiss c7state (some ("seq1")) = .error (.invalidState ("TWISS table invalid.")) :=
  ⟨((c7_lookup_failures c7state (some ("nope"))).1 (by decide)).2.1,
   (c7_lookup_failures c7state (some ("seq1"))).2 c7seq (by decide) rfl⟩

/-! Claim C2: no lifecycle guard exists at the boundary. -/

/-- C2 (amended): no public operation consults the engine lifecycle
state: each operation other than `start`/`finish` behaves identically
whether or not the engine has been started (its result is invariant
under the `started` flag), and — as the counterexample shows — calls
outside the start/finish bracket are forwarded to the native layer
rather than failing fast with an `EngineNotStarted` error; the code
contains no such guard. -/
theorem c2_no_lifecycle_guard :
    (∀ st b cmd, input { st with started := b } cmd = input st cmd) ∧
    (∀ st b nm, sequence_exists { st with started := b } nm = sequence_exists st nm) ∧
    (∀ st b nm, get_twiss { st with started := b } nm = get_twiss st nm) ∧
    (∀ st b nm, get_beam { st with started := b } nm = get_beam st nm) ∧
    (∀ st b, get_current_sequence { st with started := b } = get_current_sequence st) ∧
    (∀ st b, get_sequences { st with started := b } = get_sequences st) ∧
    (∀ st b t, table_exists { st with started := b } t = table_exists st t) ∧
    (∀ st b t, get_table_summary { st with started := b } t = get_table_summary st t) ∧
    (∀ st b t, get_table_columns { st with started := b } t = get_table_columns st t) ∧
    (∀ st b t c, get_table_column { st with started := b } t c = get_table_column st t c) ∧
    (∀ st b nm, get_elements { st with started := b } nm = get_elements st nm) ∧
    (∀ st b nm, get_expanded_elements { st with started := b } nm = get_expanded_elements st nm) ∧
    (∀ st b e, evaluate { st with started := b } e = evaluate st e) :=
  ⟨fun _ _ _ => rfl, fun _ _ _ => rfl, fun _ _ _ => rfl, fun _ _ _ => rfl,
   fun _ _ => rfl, fun _ _ => rfl, fun _ _ _ => rfl, fun _ _ _ => rfl,
   fun _ _ _ => rfl, fun _ _ _ _ => rfl, fun _ _ _ => rfl, fun _ _ _ => rfl,
   fun _ _ _ => rfl⟩

/-- Concrete active sequence for the C2 counterexample. -/
def c2seq : sequence :=
  { name := .str ("lhc"), tw_valid := false, tw_table := none,
    beam := none, nodes := [], all_nodes := [] }

/-- Concrete engine state outside the start/finish bracket
(`started = false`) with an active sequence. -/
def c2state : MadxState :=
  { started := false, current_sequ := some c2seq,
    seqs := { list := ["lhc"], sequs := [c2seq] },
    table_exists_fn := fun _ => false,
    table_get_header := fun _ => [],
    table_register := { names := [], tables := [] },
    table_get_column := fun _ _ => { length := 0, datatype := 'V', data := 0 },
    read_str := fun _ _ => "",
    eval_native := fun _ => 0 }

/-- Counterexample to C2 as stated: in a state outside the
start/finish bracket, `get_current_sequence` (a public operation other
than start/finish) returns the active sequence name instead of the
`EngineNotStarted` failure — the boundary guard does not exist. -/
theorem c2_counterexample :
    c2state.started = false ∧
    get_current_sequence c2state = .ok (some ("lhc")) ∧
    get_current_sequence c2state ≠ .error Err.engineNotStarted :=
  ⟨rfl, rfl, by decide⟩

/-! Claim C6: table header line parsing. -/

theorem takeWhile_all_append {α : Type} (p : α → Bool) (t : List α) (s : α)
    (r : List α) (ht : ∀ c ∈ t, p c = true) (hs : p s = false) :
    (t ++ s :: r).takeWhile p = t := by
  induction t with
  | nil =>
    have hns : ¬ p s = true := by rw [hs]; simp
    simp [List.takeWhile_cons_of_neg hns]
  | cons c cs ih =>
    have hc : p c = true := ht c (List.mem_cons_self c cs)
    simp only [List.cons_append, List.takeWhile_cons_of_pos hc]
    rw [ih (fun x hx => ht x (List.mem_cons_of_mem c hx))]

theorem dropWhile_all_append {α : Type} (p : α → Bool) (t : List α) (s : α)
    (r : List α) (ht : ∀ c ∈ t, p c = true) (hs : p s = false) :
    (t ++ s :: r).dropWhile p = s :: r := by
  induction t with
  | nil =>
    have hns : ¬ p s = true := by rw [hs]; simp
    simp [List.dropWhile_cons_of_neg hns]
  | cons c cs ih =>
    have hc : p c = true := ht c (List.mem_cons_self c cs)
    simp only [List.cons_append, List.dropWhile_cons_of_pos hc]
    exact ih (fun x hx => ht x (List.mem_cons_of_mem c hx))

theorem dropWhile_all_false {α : Type} (p : α → Bool) (t rest : List α)
    (hne : t ≠ []) (ht : ∀ c ∈ t, p c = false) :
    List.dropWhile p (t ++ rest) = t ++ rest := by
  cases t with
  | nil => exact absurd rfl hne
  | cons c cs =>
    have hc : ¬ p c = true := by rw [ht c (List.mem_cons_self c cs)]; simp
    simp [List.dropWhile_cons_of_neg hc]

theorem splitWsCore_last (t : List Char) (hne : t ≠ []) :
    splitWsCore 0 t = [t] := by
  cases t with
  | nil => exact absurd rfl hne
  | cons c cs => rfl

theorem splitWsCore_token (m : Nat) (t r : List Char) (hm : m ≠ 0)
    (hne : t ≠ []) (ht : ∀ c ∈ t, pyIsSpace c = false) :
    splitWsCore m (t ++ ' ' :: r) =
      t :: splitWsCore (m - 1) (List.dropWhile pyIsSpace r) := by
  cases m with
  | zero => exact absurd rfl hm
  | succ m0 =>
    cases t with
    | nil => exact absurd rfl hne
    | cons c cs =>
      have hsp : (fun x => !pyIsSpace x) ' ' = false := by rfl
      have htp : ∀ x ∈ (c :: cs), (fun y => !pyIsSpace y) x = true := by
        intro x hx
        show (!pyIsSpace x) = true
        rw [ht x hx]
        rfl
      simp only [List.cons_append, splitWsCore, Nat.add_sub_cancel, List.append_eq]
      congr 1
      · have := takeWhile_all_append (fun y => !pyIsSpace y) (c :: cs) ' ' r htp hsp
        simpa using this
      · have hdw := dropWhile_all_append (fun y => !pyIsSpace y) (c :: cs) ' ' r htp hsp
        simp only [List.cons_append] at hdw
        rw [hdw]
        have hsps : pyIsSpace ' ' = true := by rfl
        rw [List.dropWhile_cons_of_pos hsps]

theorem string_data_append (s t : String) : (s ++ t).data = s.data ++ t.data := by
  cases s
  cases t
  rfl

theorem string_mk_data (s : String) : String.mk s.data = s := rfl

theorem pysplit_four_tokens (i k f v : String)
    (hi : i.data ≠ []) (hk : k.data ≠ []) (hf : f.data ≠ []) (hv : v.data ≠ [])
    (wi : ∀ c ∈ i.data, pyIsSpace c = false)
    (wk : ∀ c ∈ k.data, pyIsSpace c = false)
    (wf : ∀ c ∈ f.data, pyIsSpace c = false)
    (wv : ∀ c ∈ v.data, pyIsSpace c = false) :
    pysplit (i ++ " " ++ k ++ " " ++ f ++ " " ++ v) 3 = [i, k, f, v] := by
  have hdata : (i ++ " " ++ k ++ " " ++ f ++ " " ++ v).data =
      i.data ++ ' ' :: (k.data ++ ' ' :: (f.data ++ ' ' :: v.data)) := by
    simp only [string_data_append, List.append_assoc]
    rfl
  unfold pysplit
  rw [hdata]
  rw [dropWhile_all_false pyIsSpace i.data _ hi wi]
  rw [splitWsCore_token 3 i.data _ (by decide) hi wi]
  rw [dropWhile_all_false pyIsSpace k.data _ hk wk]
  rw [splitWsCore_token (3 - 1) k.data _ (by decide) hk wk]
  rw [dropWhile_all_false pyIsSpace f.data _ hf wf]
  rw [splitWsCore_token (3 - 1 - 1) f.data _ (by decide) hf wf]
  have hvd : List.dropWhile pyIsSpace v.data = v.data := by
    have := dropWhile_all_false pyIsSpace v.data [] hv wv
    simpa using this
  rw [hvd]
  have h0 : (3 - 1 - 1 - 1 : Nat) = 0 := rfl
  rw [h0, splitWsCore_last v.data hv]
  simp [string_mk_data]

theorem pyfloat_example : pyfloat ("3.14") = some ((157 : Rat) / 50) := by
  have hp : pyfloatParts (("3.14" : String).data) =
      some ⟨false, ['3'], ['1', '4'], false, []⟩ := by decide
  have h1 : digitsToNat (['3'] ++ ['1', '4']) = 314 := by decide
  have h2 : digitsToNat ([] : List Char) = 0 := rfl
  have hv : floatVal ⟨false, ['3'], ['1', '4'], false, []⟩ = (157 : Rat) / 50 := by
    simp only [floatVal, h1, h2]
    norm_num
  simp only [pyfloat, hp, Option.map_some']
  rw [hv]

/-- C6 (amended): a header line laid out as the four whitespace-joined
fields ignore-field, key, format-code, raw-value parses by dispatching
on the format code: `%le` pairs the key with the raw value parsed as a
float (failing when it is not a float literal), any other code ending
in `s` strips the first and last character (the surrounding quotes)
from the raw value, and any other code passes the raw value through as
text.  In particular `"* key %le 3.14"` parses to `("key", 3.14)` and
`"* key %s \"hello\""` parses to `("key", "hello")`.  (The claim's
five-token example `"* key %le value 3.14"` instead fails, see the
counterexample: the raw value is the whole remainder `"value 3.14"`,
which is not a float literal.) -/
theorem c6_header_line_parsing (i k f v : String)
    (hi : i.data ≠ []) (hk : k.data ≠ []) (hf : f.data ≠ []) (hv : v.data ≠ [])
    (wi : ∀ c ∈ i.data, pyIsSpace c = false)
    (wk : ∀ c ∈ k.data, pyIsSpace c = false)
    (wf : ∀ c ∈ f.data, pyIsSpace c = false)
    (wv : ∀ c ∈ v.data, pyIsSpace c = false) :
    (_split_header_line (.str (i ++ " " ++ k ++ " " ++ f ++ " " ++ v)) =
      (if f = "%le" then
        (match pyfloat v with
          | some x => Except.ok (k, HeaderVal.num x)
          | none => Except.error (Err.floatParseError v))
       else if endsInChar f 's' then Except.ok (k, HeaderVal.str (pySlice1m1 v))
       else Except.ok (k, HeaderVal.str v))) ∧
    _split_header_line (.str ("* key %le 3.14")) =
      .ok (("key"), .num ((157 : Rat) / 50)) ∧
    _split_header_line (.str ("* key %s \"hello\"")) =
      .ok (("key"), .str ("hello")) := by
  refine ⟨?_, ?_, ?_⟩
  · have hs := pysplit_four_tokens i k f v hi hk hf hv wi wk wf wv
    simp only [_split_header_line, hs]
  · have hsplit : pysplit ("* key %le 3.14") 3 =
        [("*"), ("key"), ("%le"), ("3.14")] := by decide
    simp only [_split_header_line, hsplit, pyfloat_example, if_true]
  · decide

/-- Counterexample to C6 as stated: the claim's example line
`"* key %le value 3.14"` has five whitespace-separated tokens, so the
raw value (everything after the third split) is `"value 3.14"`; its
float conversion fails and the parse raises `ValueError` instead of
producing `("key", 3.14)`. -/
theorem c6_counterexample :
    _split_header_line (.str ("* key %le value 3.14")) =
      .error (.floatParseError ("value 3.14")) := by decide

/-- Witness for C6 (amended) at a concrete four-token line with a
pass-through format code. -/
theorem c6_witness :
    _split_header_line (.str ("@" ++ " " ++ "k1" ++ " " ++ "%d" ++ " " ++ "42")) =
      .ok (("k1"), .str ("42")) := by
  rw [(c6_header_line_parsing ("@") ("k1") ("%d") ("42") (by decide) (by decide)
    (by decide) (by decide) (by decide) (by decide) (by decide) (by decide)).1]
  decide

end Cpymad
